import Mathlib

/-!
Verification of the AI Background Remover client.

The development shallowly embeds the two source modules:

* `services/geminiService.ts` — the API client `removeBackground`:
  the credential precondition, and the response handling that extracts an
  inline-image part, a textual refusal, or fails generically.
* the application component (`App`) — a finite session state machine
  (`initial / loading / result / error`) driven by `processFile`,
  `handleReset`, and the resolution of the API call, plus the
  `downloadImage` filename computation.

JavaScript truthiness on optional strings (`undefined`/`""` are falsy) is
modelled by `jsTruthy`; optional chaining (`a?.b`) by `Option.bind`.
-/

namespace BgRemover

/-- JS truthiness of a possibly-absent string: `undefined` and `""` are
falsy, every other string is truthy. -/
def jsTruthy : Option String → Bool
  | none => false
  | some s => !s.isEmpty

/-- A browser `File`: the fields the app reads (`name`, `type`). -/
structure File where
  name : String
  type : String
deriving DecidableEq, Repr

/-! ## The Gemini response shape

`response.candidates?.[0]?.content?.parts?` — every level may be absent. -/

/-- An inline-data blob inside a response part. -/
structure InlineData where
  data : String
  mimeType : String
deriving DecidableEq, Repr

/-- One part of a candidate's content: may carry inline image data and/or
text. -/
structure Part where
  inlineData : Option InlineData
  text : Option String
deriving DecidableEq, Repr

/-- A candidate's content: an optional list of parts. -/
structure Content where
  parts : Option (List Part)
deriving DecidableEq, Repr

/-- One response candidate. -/
structure Candidate where
  content : Option Content
deriving DecidableEq, Repr

/-- The service response: an optional list of candidates. -/
structure GenerateContentResponse where
  candidates : Option (List Candidate)
deriving DecidableEq, Repr

/-- `response.candidates?.[0]?.content?.parts` with JS optional chaining:
any absent level short-circuits to `none`. -/
def responseParts (r : GenerateContentResponse) : Option (List Part) :=
  ((r.candidates.bind List.head?).bind Candidate.content).bind Content.parts

/-- The parts list the two `find` calls scan (`none` behaves as an empty
scan). -/
def partsOf (r : GenerateContentResponse) : List Part :=
  (responseParts r).getD []

/-- `response.candidates?.[0]?.content?.parts?.find(part => part.inlineData)`:
the first part whose `inlineData` is present (objects are truthy). -/
def findInlinePart (r : GenerateContentResponse) : Option Part :=
  (responseParts r).bind (List.find? (fun p => p.inlineData.isSome))

/-- `response.candidates?.[0]?.content?.parts?.find(part => part.text)`:
the first part whose `text` is truthy (present and non-empty). -/
def findTextPart (r : GenerateContentResponse) : Option Part :=
  (responseParts r).bind (List.find? (fun p => jsTruthy p.text))

/-- Message head of the text-refusal error thrown by `removeBackground`. -/
def textRefusalHead : String :=
  "API returned a text response instead of an image: "

/-- Generic failure message of `removeBackground`. -/
def noImageMsg : String :=
  "Failed to process the image. The API did not return an image."

/-- The text-check and fallback after the image check failed: mirrors
`if (textResponsePart && textResponsePart.text) throw ...; throw generic`. -/
def afterImageCheck (r : GenerateContentResponse) : Except String String :=
  match findTextPart r with
  | some p =>
      if jsTruthy p.text then
        Except.error (textRefusalHead ++ p.text.getD "")
      else
        Except.error noImageMsg
  | none => Except.error noImageMsg

/-- Response handling of `removeBackground` (after the network call):
return the first inline-image part's data, else throw embedding the first
truthy text part, else throw the generic error. -/
def handleResponse (r : GenerateContentResponse) : Except String String :=
  match findInlinePart r with
  | some p =>
      match p.inlineData with
      | some d => Except.ok d.data
      | none => afterImageCheck r
  | none => afterImageCheck r

/-- One run of `removeBackground`: the `result`, and whether the network
request was issued. `apiKey` is `process.env.API_KEY` (absent = `none`);
`resp` is the response the service would return if called.
`if (!process.env.API_KEY) throw` fires on a falsy key, before the
`generateContent` call. -/
structure ClientRun where
  result : Except String String
  networkCalled : Bool
deriving Repr

/-- Message of the missing-credential error. -/
def missingKeyMsg : String := "API_KEY environment variable is not set."

/-- `removeBackground(imageFile)` as a function of the environment's
`API_KEY` and of the response the service returns when called. -/
def removeBackground (apiKey : Option String) (resp : GenerateContentResponse) :
    ClientRun :=
  if !jsTruthy apiKey then
    { result := Except.error missingKeyMsg, networkCalled := false }
  else
    { result := handleResponse resp, networkCalled := true }

/-! ## The App session state machine -/

/-- The `AppState` union type of the component. -/
inductive AppState where
  | initial
  | loading
  | result
  | error
deriving DecidableEq, Repr

/-- The component's session state: the five `useState` hooks. -/
structure Session where
  originalFile : Option File
  originalImageUrl : Option String
  processedImageUrl : Option String
  appState : AppState
  errorMessage : String
deriving DecidableEq, Repr

/-- The initial hook values: all references `null`, state `initial`, empty
error text. -/
def initialSession : Session :=
  { originalFile := none
    originalImageUrl := none
    processedImageUrl := none
    appState := AppState.initial
    errorMessage := "" }

/-- The synchronous head of `processFile(file)`, run before `await`:
sets `loading`, stores the file, clears processed data and error text, and
stores the freshly created object URL `url`. -/
def processFileStart (s : Session) (file : File) (url : String) : Session :=
  { s with
    appState := AppState.loading
    originalFile := some file
    processedImageUrl := none
    errorMessage := ""
    originalImageUrl := some url }

/-- The success continuation of `processFile`: store the data URL built
from the returned base64 data and move to `result`. -/
def processFileResolve (s : Session) (resultBase64 : String) : Session :=
  { s with
    processedImageUrl := some ("data:image/png;base64," ++ resultBase64)
    appState := AppState.result }

/-- Fallback error text used when the rejection value is not an `Error`. -/
def unknownErrorMsg : String := "An unknown error occurred. Please try again."

/-- `error instanceof Error ? error.message : fallback`: the rejection
value is modelled as `some message` for an `Error`, `none` otherwise. -/
def rejectionText (reason : Option String) : String :=
  match reason with
  | some m => m
  | none => unknownErrorMsg

/-- The catch block of `processFile`: set the error text and move to
`error` (the other hooks are not touched). -/
def processFileReject (s : Session) (reason : Option String) : Session :=
  { s with
    errorMessage := rejectionText reason
    appState := AppState.error }

/-- `handleReset`: null every reference, clear the error text, return to
`initial`. -/
def resetSession : Session := initialSession

/-- Events driving the session: a file submission (with the object URL the
browser mints), the API promise resolving or rejecting, and reset. -/
inductive Event where
  | submit (file : File) (url : String)
  | resolveOk (data : String)
  | resolveErr (reason : Option String)
  | reset
deriving DecidableEq, Repr

/-- One controller transition. A resolution or rejection is delivered to
the in-flight request, i.e. in state `loading` (the spec's sequential
model: one outstanding request runs to completion or rejection). -/
def step (s : Session) (e : Event) : Session :=
  match e with
  | Event.submit f url => processFileStart s f url
  | Event.resolveOk d =>
      if s.appState = AppState.loading then processFileResolve s d else s
  | Event.resolveErr r =>
      if s.appState = AppState.loading then processFileReject s r else s
  | Event.reset => resetSession

/-- The session reached from the initial hooks by a list of events. -/
def runTrace (tr : List Event) : Session :=
  tr.foldl step initialSession

/-! ## The download filename (`downloadImage` in `ResultView`) -/

/-- `str.lastIndexOf('.')` on the character list: the index of the last
dot, or `-1` when there is none. -/
def lastDotIndexAux : List Char → Int
  | [] => -1
  | c :: cs =>
      let r := lastDotIndexAux cs
      if 0 ≤ r then r + 1
      else if c = '.' then 0 else -1

/-- `fileName.lastIndexOf('.')`. -/
def lastDotIndex (s : String) : Int :=
  lastDotIndexAux s.data

/-- `fileName.substring(0, e)`: JS clamps a negative end index to 0. -/
def jsSubstringTo (s : String) (e : Int) : String :=
  String.mk (s.data.take e.toNat)

/-- `fileName?.substring(0, fileName.lastIndexOf('.')) || 'image'`:
an absent name (`undefined?.substring` is `undefined`) and an empty
substring are both falsy, so `'image'` is used. -/
def jsBaseName (fileName : Option String) : String :=
  match fileName with
  | none => "image"
  | some fn =>
      let b := jsSubstringTo fn (lastDotIndex fn)
      if b = "" then "image" else b

/-- `link.download` in `downloadImage`. -/
def downloadName (fileName : Option String) : String :=
  jsBaseName fileName ++ "_no_bg.png"

/-! ## Helper lemmas on the response scan -/

theorem findInlinePart_eq (r : GenerateContentResponse) :
    findInlinePart r = (partsOf r).find? (fun p => p.inlineData.isSome) := by
  unfold findInlinePart partsOf
  cases responseParts r <;> rfl

theorem findTextPart_eq (r : GenerateContentResponse) :
    findTextPart r = (partsOf r).find? (fun p => jsTruthy p.text) := by
  unfold findTextPart partsOf
  cases responseParts r <;> rfl

theorem handleResponse_generic (r : GenerateContentResponse)
    (h1 : ∀ p ∈ partsOf r, p.inlineData = none)
    (h2 : ∀ p ∈ partsOf r, ¬ jsTruthy p.text) :
    handleResponse r = Except.error noImageMsg := by
  have himg : findInlinePart r = none := by
    rw [findInlinePart_eq]
    exact List.find?_eq_none.mpr fun x hx => by simp [h1 x hx]
  have htxt : findTextPart r = none := by
    rw [findTextPart_eq]
    exact List.find?_eq_none.mpr fun x hx => by simp [h2 x hx]
  unfold handleResponse afterImageCheck
  rw [himg, htxt]

/-! ## Concrete responses used as witnesses -/

def respImg : GenerateContentResponse :=
  ⟨some [⟨some ⟨some [⟨some ⟨"IMG", "image/png"⟩, none⟩]⟩⟩]⟩

def respTxt : GenerateContentResponse :=
  ⟨some [⟨some ⟨some [⟨none, some "I cannot edit this image."⟩]⟩⟩]⟩

def respEmpty : GenerateContentResponse := ⟨none⟩

def respDegenerate : GenerateContentResponse :=
  ⟨some [⟨some ⟨some [⟨none, some ""⟩]⟩⟩]⟩

/-- C1: for every service response, `removeBackground` first scans for an
inline-image part and, if one exists, resolves with that part's encoded
bytes; if no image part exists but a (truthy) text part does, it rejects
with an error embedding that text verbatim; if neither is present, it
rejects with the generic no-image error. -/
theorem removeBackground_response_dispatch (r : GenerateContentResponse) :
    ((∃ p ∈ partsOf r, p.inlineData.isSome) →
      ∃ p ∈ partsOf r, ∃ d, p.inlineData = some d ∧
        handleResponse r = Except.ok d.data) ∧
    ((∀ p ∈ partsOf r, p.inlineData = none) →
      (∃ p ∈ partsOf r, jsTruthy p.text) →
      ∃ p ∈ partsOf r, ∃ t, p.text = some t ∧
        handleResponse r = Except.error (textRefusalHead ++ t)) ∧
    ((∀ p ∈ partsOf r, p.inlineData = none) →
      (∀ p ∈ partsOf r, ¬ jsTruthy p.text) →
      handleResponse r = Except.error noImageMsg) := by
  refine ⟨?_, ?_, handleResponse_generic r⟩
  · rintro ⟨p, hp, hd⟩
    have hs : ((partsOf r).find? (fun p => p.inlineData.isSome)).isSome :=
      List.find?_isSome.mpr ⟨p, hp, hd⟩
    obtain ⟨q, hq⟩ := Option.isSome_iff_exists.mp hs
    have hqd := List.find?_some hq
    simp only at hqd
    obtain ⟨d, hd'⟩ := Option.isSome_iff_exists.mp hqd
    refine ⟨q, List.mem_of_find?_eq_some hq, d, hd', ?_⟩
    have hfq : findInlinePart r = some q := by rw [findInlinePart_eq, hq]
    simp [handleResponse, hfq, hd']
  · intro hno
    rintro ⟨p, hp, ht⟩
    have himg : findInlinePart r = none := by
      rw [findInlinePart_eq]
      exact List.find?_eq_none.mpr fun x hx => by simp [hno x hx]
    have hs : ((partsOf r).find? (fun p => jsTruthy p.text)).isSome :=
      List.find?_isSome.mpr ⟨p, hp, ht⟩
    obtain ⟨q, hq⟩ := Option.isSome_iff_exists.mp hs
    have hqt := List.find?_some hq
    simp only at hqt
    cases hqtext : q.text with
    | none => rw [hqtext] at hqt; exact absurd hqt (by simp [jsTruthy])
    | some t =>
      rw [hqtext] at hqt
      refine ⟨q, List.mem_of_find?_eq_some hq, t, hqtext, ?_⟩
      have hfq : findTextPart r = some q := by rw [findTextPart_eq, hq]
      simp [handleResponse, afterImageCheck, himg, hfq, hqtext, hqt]

theorem removeBackground_response_dispatch_witness :
    (∃ p ∈ partsOf respImg, ∃ d, p.inlineData = some d ∧
       handleResponse respImg = Except.ok d.data) ∧
    (∃ p ∈ partsOf respTxt, ∃ t, p.text = some t ∧
       handleResponse respTxt = Except.error (textRefusalHead ++ t)) ∧
    handleResponse respEmpty = Except.error noImageMsg :=
  ⟨(removeBackground_response_dispatch respImg).1 (by decide),
   (removeBackground_response_dispatch respTxt).2.1 (by decide) (by decide),
   (removeBackground_response_dispatch respEmpty).2.2 (by decide) (by decide)⟩

/-- C2: with the credential absent from the environment, every call to
`removeBackground` fails with the message naming `API_KEY`, and no network
request is issued. -/
theorem removeBackground_missing_key (apiKey : Option String)
    (resp : GenerateContentResponse) (h : apiKey = none) :
    (removeBackground apiKey resp).result = Except.error missingKeyMsg ∧
    (removeBackground apiKey resp).networkCalled = false := by
  subst h
  exact ⟨rfl, rfl⟩

theorem removeBackground_missing_key_witness :
    (removeBackground none respImg).result = Except.error missingKeyMsg ∧
    (removeBackground none respImg).networkCalled = false :=
  removeBackground_missing_key none respImg rfl

/-- C10: the response handling is total over degenerate response shapes —
no candidates, an empty candidate list, missing content or parts, or parts
carrying neither inline data nor non-empty text (an empty text part is
treated as absent) — and yields the generic failure. -/
theorem handleResponse_total_degenerate (r : GenerateContentResponse)
    (h : r.candidates = none ∨ r.candidates = some [] ∨
      ∃ c cs, r.candidates = some (c :: cs) ∧
        (c.content = none ∨ ∃ ct, c.content = some ct ∧
          (ct.parts = none ∨ ∃ ps, ct.parts = some ps ∧
            ∀ p ∈ ps, p.inlineData = none ∧
              (p.text = none ∨ p.text = some "")))) :
    handleResponse r = Except.error noImageMsg := by
  have hparts : partsOf r = [] ∨
      (∃ ps, partsOf r = ps ∧ ∀ p ∈ ps, p.inlineData = none ∧
        (p.text = none ∨ p.text = some "")) := by
    rcases h with hc | hc | ⟨c, cs, hc, hrest⟩
    · left; simp [partsOf, responseParts, hc]
    · left; simp [partsOf, responseParts, hc]
    · rcases hrest with hct | ⟨ct, hct, hrest⟩
      · left; simp [partsOf, responseParts, hc, hct]
      · rcases hrest with hps | ⟨ps, hps, hall⟩
        · left; simp [partsOf, responseParts, hc, hct, hps]
        · right
          exact ⟨ps, by simp [partsOf, responseParts, hc, hct, hps], hall⟩
  rcases hparts with hp | ⟨ps, hp, hall⟩
  · refine handleResponse_generic r ?_ ?_ <;> rw [hp] <;> intro p hp' <;>
      exact absurd hp' (List.not_mem_nil p)
  · refine handleResponse_generic r ?_ ?_ <;> rw [hp] <;> intro p hp'
    · exact (hall p hp').1
    · have hfalse : jsTruthy p.text = false := by
        rcases (hall p hp').2 with ht | ht <;> rw [ht] <;> decide
      simp [hfalse]

theorem handleResponse_total_degenerate_witness :
    handleResponse respDegenerate = Except.error noImageMsg :=
  handleResponse_total_degenerate respDegenerate
    (Or.inr (Or.inr ⟨⟨some ⟨some [⟨none, some ""⟩]⟩⟩, [], rfl,
      Or.inr ⟨⟨some [⟨none, some ""⟩]⟩, rfl,
        Or.inr ⟨[⟨none, some ""⟩], rfl, by decide⟩⟩⟩))

/-! ## State-machine theorems -/

/-- A sample file used to instantiate theorems at concrete inputs. -/
def exFile : File := { name := "photo.png", type := "image/png" }

/-- C3: from the initial state, submitting a file moves the state to
`loading`; no single transition out of `initial` reaches `result` or
`error`; and a resolution or rejection of the API call has no effect
before the state is `loading` — the client is only consulted from
`loading`. -/
theorem initial_always_through_loading (s : Session)
    (h : s.appState = AppState.initial) :
    (∀ f url, (step s (Event.submit f url)).appState = AppState.loading) ∧
    (∀ e, (step s e).appState = AppState.initial ∨
      (step s e).appState = AppState.loading) ∧
    (∀ d, step s (Event.resolveOk d) = s) ∧
    (∀ r, step s (Event.resolveErr r) = s) := by
  refine ⟨fun f url => rfl, ?_, ?_, ?_⟩
  · intro e
    cases e with
    | submit f url => exact Or.inr rfl
    | resolveOk d => exact Or.inl (by simp [step, h])
    | resolveErr r => exact Or.inl (by simp [step, h])
    | reset => exact Or.inl rfl
  · intro d; simp [step, h]
  · intro r; simp [step, h]

theorem initial_always_through_loading_witness :
    (step initialSession (Event.submit exFile "blob:1")).appState =
      AppState.loading :=
  (initial_always_through_loading initialSession rfl).1 exFile "blob:1"

/-- C5: `handleReset` from any state returns to `initial` with every
session field cleared. -/
theorem reset_clears_session (s : Session) :
    step s Event.reset =
      { originalFile := none, originalImageUrl := none,
        processedImageUrl := none, appState := AppState.initial,
        errorMessage := "" } := rfl

/-- C6: on a rejection delivered to the in-flight request, the state
becomes `error` and the message is the failure's own message, or the
generic fallback when the rejection value carries no message. -/
theorem reject_message_propagation (s : Session)
    (h : s.appState = AppState.loading) :
    (∀ r, (step s (Event.resolveErr r)).appState = AppState.error) ∧
    (∀ m, (step s (Event.resolveErr (some m))).errorMessage = m) ∧
    (step s (Event.resolveErr none)).errorMessage = unknownErrorMsg := by
  refine ⟨?_, ?_, ?_⟩ <;>
    simp [step, h, processFileReject, rejectionText]

theorem reject_message_propagation_witness :
    (step (runTrace [Event.submit exFile "blob:1"])
        (Event.resolveErr (some "boom"))).errorMessage = "boom" :=
  (reject_message_propagation (runTrace [Event.submit exFile "blob:1"])
    rfl).2.1 "boom"

/-- C7: the synchronous head of `processFile` sets `loading`, stores the
file and its preview URL, and clears processed data and error text —
before the API client can resolve or reject. -/
theorem submit_sync_effects (s : Session) (f : File) (url : String) :
    step s (Event.submit f url) =
      { originalFile := some f, originalImageUrl := some url,
        processedImageUrl := none, appState := AppState.loading,
        errorMessage := "" } := rfl

/-- C9: a rejection changes only the state and the error text: the source
file reference, the preview reference, and the processed-image field are
exactly those of the loading state. -/
theorem reject_frame (s : Session) (r : Option String)
    (h : s.appState = AppState.loading) :
    (step s (Event.resolveErr r)).originalFile = s.originalFile ∧
    (step s (Event.resolveErr r)).originalImageUrl = s.originalImageUrl ∧
    (step s (Event.resolveErr r)).processedImageUrl = s.processedImageUrl := by
  simp [step, h, processFileReject]

theorem reject_frame_witness :
    (step (runTrace [Event.submit exFile "blob:1"])
        (Event.resolveErr (some "boom"))).originalFile =
      (runTrace [Event.submit exFile "blob:1"]).originalFile ∧
    (step (runTrace [Event.submit exFile "blob:1"])
        (Event.resolveErr (some "boom"))).originalImageUrl =
      (runTrace [Event.submit exFile "blob:1"]).originalImageUrl ∧
    (step (runTrace [Event.submit exFile "blob:1"])
        (Event.resolveErr (some "boom"))).processedImageUrl =
      (runTrace [Event.submit exFile "blob:1"]).processedImageUrl :=
  reject_frame (runTrace [Event.submit exFile "blob:1"]) (some "boom") rfl

/-! ## Session invariants (C4) -/

/-- Structural invariant: `result` has the source file, the preview URL
and the processed data; `error` has no processed data; `loading` has the
source file and preview URL and no processed data yet. -/
def InvShape (s : Session) : Prop :=
  (s.appState = AppState.result →
    s.originalFile.isSome ∧ s.originalImageUrl.isSome ∧
    s.processedImageUrl.isSome) ∧
  (s.appState = AppState.error → s.processedImageUrl = none) ∧
  (s.appState = AppState.loading →
    s.originalFile.isSome ∧ s.originalImageUrl.isSome ∧
    s.processedImageUrl = none)

/-- Message invariant: the error state carries non-empty error text. -/
def InvMsg (s : Session) : Prop :=
  s.appState = AppState.error → s.errorMessage ≠ ""

/-- A rejection whose `Error` message is the empty string defeats the
non-empty-error-text invariant; every other event is harmless. -/
def eventOk : Event → Bool
  | Event.resolveErr (some m) => !m.isEmpty
  | _ => true

theorem invShape_initial : InvShape initialSession := by
  refine ⟨?_, ?_, ?_⟩ <;> intro h <;> exact absurd h (by decide)

theorem invShape_step (s : Session) (e : Event) (h : InvShape s) :
    InvShape (step s e) := by
  cases e with
  | submit f url =>
      refine ⟨?_, ?_, ?_⟩ <;> intro hst <;>
        simp [step, processFileStart] at hst ⊢
  | resolveOk d =>
      by_cases hl : s.appState = AppState.loading
      · obtain ⟨h1, h2, h3⟩ := h.2.2 hl
        refine ⟨?_, ?_, ?_⟩ <;> intro hst <;>
          simp [step, hl, processFileResolve] at hst ⊢
        exact ⟨h1, h2⟩
      · simpa [step, hl] using h
  | resolveErr r =>
      by_cases hl : s.appState = AppState.loading
      · obtain ⟨h1, h2, h3⟩ := h.2.2 hl
        refine ⟨?_, ?_, ?_⟩ <;> intro hst <;>
          simp [step, hl, processFileReject] at hst ⊢
        exact h3
      · simpa [step, hl] using h
  | reset => exact invShape_initial

theorem invMsg_step (s : Session) (e : Event) (he : eventOk e)
    (h : InvMsg s) : InvMsg (step s e) := by
  cases e with
  | submit f url =>
      intro hst
      simp [step, processFileStart] at hst
  | resolveOk d =>
      by_cases hl : s.appState = AppState.loading
      · intro hst
        simp [step, hl, processFileResolve] at hst
      · simpa [step, hl] using h
  | resolveErr r =>
      by_cases hl : s.appState = AppState.loading
      · intro hst
        cases r with
        | some m =>
            have hm : m.isEmpty = false := by
              simpa [eventOk] using he
            simp [step, hl, processFileReject, rejectionText]
            intro hm'
            rw [hm'] at hm
            exact absurd hm (by decide)
        | none =>
            simp [step, hl, processFileReject, rejectionText,
              unknownErrorMsg]
      · simpa [step, hl] using h
  | reset =>
      intro hst
      simp [step, resetSession, initialSession] at hst

theorem invShape_runTrace_from (tr : List Event) (s : Session)
    (h : InvShape s) : InvShape (tr.foldl step s) := by
  induction tr generalizing s with
  | nil => exact h
  | cons e tr ih => exact ih (step s e) (invShape_step s e h)

theorem invMsg_runTrace_from (tr : List Event) (s : Session)
    (hok : ∀ e ∈ tr, eventOk e) (h : InvMsg s) :
    InvMsg (tr.foldl step s) := by
  induction tr generalizing s with
  | nil => exact h
  | cons e tr ih =>
      exact ih (step s e) (fun x hx => hok x (List.mem_cons_of_mem e hx))
        (invMsg_step s e (hok e (List.mem_cons_self e tr)) h)

/-- C4 counterexample: a rejection whose `Error` carries the empty message
(`new Error("")` from the network layer) reaches the `error` state with
empty error text, so "error implies the error text is non-empty" fails on
the code as stated. -/
theorem error_state_empty_message_cex :
    (runTrace [Event.submit exFile "blob:1",
        Event.resolveErr (some "")]).appState = AppState.error ∧
    (runTrace [Event.submit exFile "blob:1",
        Event.resolveErr (some "")]).errorMessage = "" := by
  exact ⟨rfl, rfl⟩

/-- C4 (amended): in every reachable session state, `result` implies the
source file, the preview reference and the processed image data are
present, and `error` implies the processed image data is absent; the error
text in state `error` is moreover non-empty provided no rejection along
the way carried an empty `Error` message. -/
theorem session_state_invariants (tr : List Event) :
    ((runTrace tr).appState = AppState.result →
      (runTrace tr).originalFile.isSome ∧
      (runTrace tr).originalImageUrl.isSome ∧
      (runTrace tr).processedImageUrl.isSome) ∧
    ((runTrace tr).appState = AppState.error →
      (runTrace tr).processedImageUrl = none) ∧
    ((∀ e ∈ tr, eventOk e) → (runTrace tr).appState = AppState.error →
      (runTrace tr).errorMessage ≠ "") := by
  have hshape : InvShape (runTrace tr) :=
    invShape_runTrace_from tr initialSession invShape_initial
  refine ⟨hshape.1, hshape.2.1, ?_⟩
  intro hok
  exact invMsg_runTrace_from tr initialSession hok
    (fun h => absurd h (by decide))

theorem session_state_invariants_witness :
    (runTrace [Event.submit exFile "blob:1",
        Event.resolveOk "DATA"]).originalFile.isSome ∧
    (runTrace [Event.submit exFile "blob:1",
        Event.resolveOk "DATA"]).originalImageUrl.isSome ∧
    (runTrace [Event.submit exFile "blob:1",
        Event.resolveOk "DATA"]).processedImageUrl.isSome :=
  (session_state_invariants
    [Event.submit exFile "blob:1", Event.resolveOk "DATA"]).1 rfl

/-! ## Download filename (C8) -/

theorem lastDotIndexAux_neg (l : List Char) (h : ∀ c ∈ l, c ≠ '.') :
    lastDotIndexAux l = -1 := by
  induction l with
  | nil => rfl
  | cons c cs ih =>
      have hc : c ≠ '.' := h c (List.mem_cons_self c cs)
      have hcs := ih fun x hx => h x (List.mem_cons_of_mem c hx)
      simp [lastDotIndexAux, hcs, hc]

theorem lastDotIndexAux_append (l1 l2 : List Char)
    (h : ∀ c ∈ l2, c ≠ '.') :
    lastDotIndexAux (l1 ++ '.' :: l2) = (l1.length : Int) := by
  induction l1 with
  | nil => simp [lastDotIndexAux, lastDotIndexAux_neg l2 h]
  | cons c cs ih =>
      have hnn : (0 : Int) ≤ (cs.length : Int) := Int.ofNat_nonneg _
      simp [lastDotIndexAux, ih, hnn]

/-- C8 counterexample: a filename without any dot ("photo") downloads as
"image_no_bg.png" — neither "photo_no_bg.png" (base name read as the whole
name) nor "_no_bg.png" (base name read as the empty part before a missing
dot), although the original filename is available. -/
theorem downloadName_dotless_cex :
    downloadName (some "photo") = "image_no_bg.png" ∧
    "image_no_bg.png" ≠ "photo_no_bg.png" ∧
    "image_no_bg.png" ≠ "_no_bg.png" :=
  ⟨rfl, by decide, by decide⟩

/-- C8 (amended): the download name is the part of the original filename
before its last dot with "_no_bg.png" appended, whenever that part is
non-empty; the default base "image" is used when the filename is
unavailable, contains no dot, or has an empty part before its last dot. -/
theorem downloadName_characterization :
    downloadName none = "image_no_bg.png" ∧
    (∀ fn : String, (∀ c ∈ fn.data, c ≠ '.') →
      downloadName (some fn) = "image_no_bg.png") ∧
    (∀ b e : String, b ≠ "" → (∀ c ∈ e.data, c ≠ '.') →
      downloadName (some (b ++ "." ++ e)) = b ++ "_no_bg.png") ∧
    (∀ e : String, (∀ c ∈ e.data, c ≠ '.') →
      downloadName (some ("." ++ e)) = "image_no_bg.png") := by
  refine ⟨rfl, ?_, ?_, ?_⟩
  · intro fn h
    have hidx : lastDotIndex fn = -1 := lastDotIndexAux_neg fn.data h
    simp [downloadName, jsBaseName, jsSubstringTo, hidx]
  · intro b e hb he
    have hdata : (b ++ "." ++ e).data = b.data ++ '.' :: e.data := by
      simp [String.data_append]
    have hidx : lastDotIndex (b ++ "." ++ e) = (b.data.length : Int) := by
      unfold lastDotIndex
      rw [hdata, lastDotIndexAux_append b.data e.data he]
    have hsub : jsSubstringTo (b ++ "." ++ e)
        (lastDotIndex (b ++ "." ++ e)) = b := by
      unfold jsSubstringTo
      rw [hidx, hdata]
      simp [List.take_left]
    simp [downloadName, jsBaseName, hsub, hb]
  · intro e he
    have hdata : ("." ++ e).data = '.' :: e.data := by
      simp [String.data_append]
    have hidx : lastDotIndex ("." ++ e) = 0 := by
      unfold lastDotIndex
      rw [hdata]
      simpa using lastDotIndexAux_append [] e.data he
    simp [downloadName, jsBaseName, jsSubstringTo, hidx]

theorem downloadName_characterization_witness :
    downloadName (some ("a" ++ "." ++ "png")) = "a" ++ "_no_bg.png" ∧
    downloadName (some ("." ++ "png")) = "image_no_bg.png" :=
  ⟨downloadName_characterization.2.2.1 "a" "png" (by decide) (by decide),
   downloadName_characterization.2.2.2 "png" (by decide)⟩

end BgRemover
